import Mathlib

/-!
Verification of the `MeetingSessionConfiguration` builder
(src/src/meetingsession/MeetingSessionConfiguration.ts).

The constructor takes two optional loosely-typed response payloads, recursively
lower-cases their property names keeping only string values and nested plain
objects (`toLowerCasePropertyNames`), converts the resulting `Map` back to a
plain object (`convertMapToObject`), unwraps an optional `meeting` / `attendee`
root key, and extracts the meeting id, the six media-placement URLs, and the
three credential fields, then selects default bandwidth policies parameterized
by the resolved attendee id.

JavaScript values reaching the builder are modelled by `RawVal`; normalized
values (the `Map` contents: strings and nested maps only) by `NormVal`.
JavaScript behaviours are embedded explicitly:
  * `for...in` enumeration (`jsEnumEntries`): objects enumerate their entries
    in insertion order, strings enumerate index-keyed single characters,
    arrays enumerate index-keyed elements, primitives enumerate nothing;
  * `String.prototype.toLowerCase()` (`strToLower`): per-character
    lower-casing (the property names involved are ASCII, on which the
    JavaScript and Unicode simple lower-casings agree);
  * `Map.prototype.set` (`mapSet`): overwrites in place when the key exists,
    appends otherwise;
  * truthiness (`truthyRaw` / `truthyNormV`): empty strings, `0`, `false` and
    `null` are falsy, objects and arrays are always truthy;
  * reading a property of `undefined` throws a `TypeError`: the builder is
    therefore embedded as an `Option`-returning function, `none` meaning that
    the construction faulted.
-/

/-- A JavaScript value as it can appear in a response payload: a string, a
number, a boolean, `null`, an array, or a plain object (a list of key-value
entries in insertion order). -/
inductive RawVal : Type where
  | str : String → RawVal
  | num : Int → RawVal
  | bool : Bool → RawVal
  | null : RawVal
  | arr : List RawVal → RawVal
  | obj : List (String × RawVal) → RawVal

/-- A value stored in the normalization `Map`: `toLowerCasePropertyNames` keeps
only strings and nested maps (here: nested entry lists). -/
inductive NormVal : Type where
  | str : String → NormVal
  | node : List (String × NormVal) → NormVal

mutual

/-- Boolean equality on normalized values, written by explicit recursion
because the automatic derivation does not handle the nested list. -/
def beqNorm : NormVal → NormVal → Bool
  | NormVal.str a, NormVal.str b => a == b
  | NormVal.str _, NormVal.node _ => false
  | NormVal.node _, NormVal.str _ => false
  | NormVal.node es, NormVal.node fs => beqNormList es fs
termination_by structural a _ => a

/-- Boolean equality on normalized entry lists. -/
def beqNormList : List (String × NormVal) → List (String × NormVal) → Bool
  | [], [] => true
  | [], _ :: _ => false
  | _ :: _, [] => false
  | (k, v) :: es, (k2, v2) :: fs => k == k2 && beqNorm v v2 && beqNormList es fs
termination_by structural l _ => l

end

mutual

theorem beqNorm_eq : ∀ (a b : NormVal), beqNorm a b = true ↔ a = b
  | NormVal.str _, NormVal.str _ => by simp [beqNorm]
  | NormVal.str _, NormVal.node _ => by simp [beqNorm]
  | NormVal.node _, NormVal.str _ => by simp [beqNorm]
  | NormVal.node es, NormVal.node fs => by
      have h := beqNormList_eq es fs
      simp [beqNorm, h]
termination_by structural a _ => a

theorem beqNormList_eq : ∀ (es fs : List (String × NormVal)),
    beqNormList es fs = true ↔ es = fs
  | [], [] => by simp [beqNormList]
  | [], _ :: _ => by simp [beqNormList]
  | _ :: _, [] => by simp [beqNormList]
  | (k, v) :: es, (k2, v2) :: fs => by
      have h1 := beqNorm_eq v v2
      have h2 := beqNormList_eq es fs
      simp [beqNormList, Bool.and_eq_true, beq_iff_eq, h1, h2, and_assoc]
termination_by structural l _ => l

end

instance : DecidableEq NormVal := fun a b =>
  decidable_of_iff (beqNorm a b = true) (beqNorm_eq a b)

/-- The contents of a normalization `Map`: entries in insertion order, keys
unique. -/
abbrev NormObj := List (String × NormVal)

/-- JavaScript `String.prototype.toLowerCase()`: per-character lower-casing.
The property names matched by the constructor are ASCII, on which this agrees
with the JavaScript builtin. -/
def strToLower (s : String) : String := String.mk (s.data.map Char.toLower)

/-- JavaScript `Map.prototype.set`: if the key is present, the value is
updated in place (keeping the entry position); otherwise the entry is appended
at the end. -/
def mapSet : NormObj → String → NormVal → NormObj
  | [], k, v => [(k, v)]
  | (k1, v1) :: rest, k, v =>
      if k1 = k then (k, v) :: rest else (k1, v1) :: mapSet rest k v

/-- Property lookup on a normalized object: the value bound to key `k`, or
`none` when the property is absent (JavaScript `undefined`). -/
def getProp : NormObj → String → Option NormVal
  | [], _ => none
  | (k1, v) :: rest, k => if k1 = k then some v else getProp rest k

/-- JavaScript `for...in` enumeration of own enumerable properties, as a list
of key-value entries: a plain object enumerates its entries in insertion
order, a string enumerates its characters keyed by their decimal index, an
array enumerates its elements keyed by their decimal index, and `null`,
numbers and booleans enumerate nothing. -/
def jsEnumEntries : RawVal → List (String × RawVal)
  | RawVal.obj es => es
  | RawVal.str s =>
      s.toList.enum.map fun p => (toString p.1, RawVal.str (String.singleton p.2))
  | RawVal.arr xs => xs.enum.map fun p => (toString p.1, p.2)
  | RawVal.num _ => []
  | RawVal.bool _ => []
  | RawVal.null => []

mutual

/-- The normalized value a single bound value contributes, if any. This is the
type dispatch of the `toLowerCasePropertyNames` loop body: a value answering
`[object Object]` to `Object.prototype.toString` is kept as its recursive
normalization, a value answering `[object String]` is kept as-is, and anything
else (number, boolean, array, `null`) is dropped. -/
def keptNorm : RawVal → Option NormVal
  | RawVal.str s => some (NormVal.str s)
  | RawVal.obj es => some (NormVal.node (lowerEntries [] es))
  | RawVal.num _ => none
  | RawVal.bool _ => none
  | RawVal.null => none
  | RawVal.arr _ => none
termination_by structural v => v

/-- The `for...in` loop of `toLowerCasePropertyNames`, folding the entry list
into the output `Map`: each kept value is stored with `Map.set` under the
lower-cased key. -/
def lowerEntries : NormObj → List (String × RawVal) → NormObj
  | acc, [] => acc
  | acc, (k, v) :: rest =>
      match keptNorm v with
      | some nv => lowerEntries (mapSet acc (strToLower k) nv) rest
      | none => lowerEntries acc rest
termination_by structural _ l => l

end

/-- `toLowerCasePropertyNames`: builds a fresh `Map` by enumerating the
argument with `for...in` and folding each entry through the keep/recurse/drop
logic of `lowerEntries`. On a plain object this agrees with the source, where
the recursive call is only ever made on values answering `[object Object]`. -/
def toLowerCasePropertyNames (v : RawVal) : NormObj :=
  lowerEntries [] (jsEnumEntries v)

/-- `convertMapToObject`: converts the `Map` (and, recursively, every nested
`Map` value) to a plain object and passes the result through
`JSON.parse(JSON.stringify(...))`. At this point every value is a string or a
nested converted object, on which the round trip is the identity, so the
key-value contents — the only thing the constructor observes — are unchanged:
in this embedding the function is the identity on `NormObj`. -/
def convertMapToObject (m : NormObj) : NormObj := m

/-- JavaScript truthiness of a raw value: `""`, `0`, `false` and `null` are
falsy; every other string and number, `true`, and all objects and arrays are
truthy. -/
def truthyRaw : RawVal → Bool
  | RawVal.str s => s ≠ ""
  | RawVal.num n => n ≠ 0
  | RawVal.bool b => b
  | RawVal.null => false
  | RawVal.arr _ => true
  | RawVal.obj _ => true

/-- JavaScript truthiness of a normalized value: an object is always truthy,
a string is truthy iff nonempty. -/
def truthyNormV : NormVal → Bool
  | NormVal.str s => s ≠ ""
  | NormVal.node _ => true

/-- Property read on a working value that may be a plain object or a string:
on an object it is the entry lookup; on a string, none of the property names
the constructor reads (`meetingid`, `mediaplacement`, `attendeeid`,
`externaluserid`, `jointoken`) is an own property of a string, so the read
yields `undefined`. -/
def getPropV : NormVal → String → Option NormVal
  | NormVal.node m, k => getProp m k
  | NormVal.str _, _ => none

/-- Modelled from the spec: `MeetingSessionURLs` (its source file is not under
src/) is a plain structured record of six named URL slots, each initialized
absent. Values are whatever the constructor assigns, hence `Option NormVal`. -/
structure MeetingSessionURLs : Type where
  audioHostURL : Option NormVal := none
  screenDataURL : Option NormVal := none
  screenSharingURL : Option NormVal := none
  screenViewingURL : Option NormVal := none
  signalingURL : Option NormVal := none
  turnControlURL : Option NormVal := none
deriving DecidableEq

/-- Modelled from the spec: `MeetingSessionCredentials` (its source file is
not under src/) is a plain structured record of attendee id, external user id
and join token, each initialized absent. -/
structure MeetingSessionCredentials : Type where
  attendeeId : Option NormVal := none
  externalUserId : Option NormVal := none
  joinToken : Option NormVal := none
deriving DecidableEq

/-- Modelled from the spec: `AllHighestVideoBandwidthPolicy` (its source file
is not under src/) is the default downlink bandwidth policy, parameterized at
construction by the resolved attendee identifier (or an absent identifier). -/
structure AllHighestVideoBandwidthPolicy : Type where
  selfAttendeeId : Option NormVal
deriving DecidableEq

/-- Modelled from the spec: `NScaleVideoUplinkBandwidthPolicy` (its source
file is not under src/) is the default uplink bandwidth policy, parameterized
at construction by the resolved attendee identifier (or an absent
identifier). -/
structure NScaleVideoUplinkBandwidthPolicy : Type where
  selfAttendeeId : Option NormVal
deriving DecidableEq

/-- Modelled from the spec: `ScreenSharingSessionOptions` (its source file is
not under src/) is a record with an optional bit-rate, default empty. -/
structure ScreenSharingSessionOptions : Type where
  bitRate : Option Nat := none
deriving DecidableEq

/-- Modelled from the spec: `ConnectionHealthPolicyConfiguration` (its source
file is not under src/) is default-constructed by its own collaborator; its
contents are opaque to the builder, so it is a unit-like record here. -/
structure ConnectionHealthPolicyConfiguration : Type where
  defaulted : Unit := ()
deriving DecidableEq

/-- The `MeetingSessionConfiguration` record: field declarations and the
documented default values from the class body. -/
structure MeetingSessionConfiguration : Type where
  meetingId : Option NormVal := none
  credentials : Option MeetingSessionCredentials := none
  urls : Option MeetingSessionURLs := none
  connectionTimeoutMs : Nat := 15000
  screenSharingTimeoutMs : Nat := 5000
  screenViewingTimeoutMs : Nat := 5000
  attendeePresenceTimeoutMs : Nat := 0
  screenSharingSessionOptions : ScreenSharingSessionOptions := {}
  connectionHealthPolicyConfiguration : ConnectionHealthPolicyConfiguration := {}
  enableWebAudio : Bool := false
  enableUnifiedPlanForChromiumBasedBrowsers : Bool := true
  enableSimulcastForUnifiedPlanChromiumBasedBrowsers : Bool := false
  videoDownlinkBandwidthPolicy : Option AllHighestVideoBandwidthPolicy := none
  videoUplinkBandwidthPolicy : Option NScaleVideoUplinkBandwidthPolicy := none
deriving DecidableEq

/-- Normalization of one optional constructor argument: a missing or falsy
argument is left alone (the corresponding `if` block is skipped), a truthy one
is replaced by `convertMapToObject(toLowerCasePropertyNames(...))`. -/
def normalizeArg : Option RawVal → Option NormObj
  | none => none
  | some v =>
      if truthyRaw v then some (convertMapToObject (toLowerCasePropertyNames v)) else none

/-- The root-key unwrap: `if (response.key) response = response.key` — the
working value becomes the bound value when the property is present and truthy,
and stays the whole object otherwise. -/
def unwrapRoot (m : NormObj) (rootKey : String) : NormVal :=
  match getProp m rootKey with
  | some v => if truthyNormV v then v else NormVal.node m
  | none => NormVal.node m

/-- The attendee block of the constructor: unwrap an optional `attendee` root
key, then read `attendeeid`, `externaluserid`, `jointoken` into a fresh
credentials record. No read in this block can throw. -/
def extractCredentials (m : NormObj) : MeetingSessionCredentials :=
  { attendeeId := getPropV (unwrapRoot m "attendee") "attendeeid"
    externalUserId := getPropV (unwrapRoot m "attendee") "externaluserid"
    joinToken := getPropV (unwrapRoot m "attendee") "jointoken" }

/-- The meeting block of the constructor: unwrap an optional `meeting` root
key, read `meetingid`, then read the six URLs off `mediaplacement`. When the
working value has no `mediaplacement` property the read is
`undefined.audiohosturl`, a `TypeError`: the block yields `none`
(construction throws). When `mediaplacement` is bound to a string, property
reads on the string yield `undefined` without throwing. -/
def extractMeeting (m : NormObj) : Option (Option NormVal × MeetingSessionURLs) :=
  match getPropV (unwrapRoot m "meeting") "mediaplacement" with
  | none => none
  | some mp =>
      some (getPropV (unwrapRoot m "meeting") "meetingid",
        { audioHostURL := getPropV mp "audiohosturl"
          screenDataURL := getPropV mp "screendataurl"
          screenSharingURL := getPropV mp "screensharingurl"
          screenViewingURL := getPropV mp "screenviewingurl"
          signalingURL := getPropV mp "signalingurl"
          turnControlURL := getPropV mp "turncontrolurl" })

/-- The tail of the constructor: assemble the configuration from the extracted
meeting id, URLs record and credentials record, set the screen-sharing
bit-rate when the platform probe reports keyframes-only screen share, and
construct the two default bandwidth policies parameterized by
`credentials ? credentials.attendeeId : null`. -/
def assemble (mid : Option NormVal) (u : Option MeetingSessionURLs)
    (creds : Option MeetingSessionCredentials)
    (screenShareSendsOnlyKeyframes : Bool) : MeetingSessionConfiguration :=
  let aid : Option NormVal :=
    match creds with
    | some c => c.attendeeId
    | none => none
  { meetingId := mid
    credentials := creds
    urls := u
    screenSharingSessionOptions :=
      if screenShareSendsOnlyKeyframes then { bitRate := some 384000 } else {}
    videoDownlinkBandwidthPolicy := some { selfAttendeeId := aid }
    videoUplinkBandwidthPolicy := some { selfAttendeeId := aid } }

/-- The constructor
`new MeetingSessionConfiguration(createMeetingResponse, createAttendeeResponse)`.
The platform probe `new DefaultBrowserBehavior().screenShareSendsOnlyKeyframes()`
is an external collaborator and enters as the boolean parameter
`screenShareSendsOnlyKeyframes`. The result is `none` exactly when the
construction throws. -/
def buildConfig (createMeetingResponse createAttendeeResponse : Option RawVal)
    (screenShareSendsOnlyKeyframes : Bool) : Option MeetingSessionConfiguration :=
  let creds : Option MeetingSessionCredentials :=
    (normalizeArg createAttendeeResponse).map extractCredentials
  match normalizeArg createMeetingResponse with
  | none => some (assemble none none creds screenShareSendsOnlyKeyframes)
  | some n =>
      match extractMeeting n with
      | none => none
      | some (mid, u) => some (assemble mid (some u) creds screenShareSendsOnlyKeyframes)

/-- The kept normalized value of the last entry in the list whose lower-cased
key is `k`, if any: because `Map.set` overwrites, the last kept entry for a
key wins. This is the specification of a `toLowerCasePropertyNames` lookup. -/
def lastKept : List (String × RawVal) → String → Option NormVal
  | [], _ => none
  | (key, v) :: rest, k =>
      match lastKept rest k with
      | some nv => some nv
      | none =>
          match keptNorm v with
          | some nv => if strToLower key = k then some nv else none
          | none => none

/-- The attendee identifier the constructor hands to the two default
bandwidth policies: `this.credentials ? this.credentials.attendeeId : null`. -/
def resolvedAid (createAttendeeResponse : Option RawVal) : Option NormVal :=
  match (normalizeArg createAttendeeResponse).map extractCredentials with
  | some c => c.attendeeId
  | none => none

/-- Scenario 1 input: the wrapped meeting response with meeting id `m1` and
the six media-placement URLs `a`..`f`. -/
def scenario1 : RawVal :=
  RawVal.obj [("Meeting", RawVal.obj [("MeetingId", RawVal.str "m1"),
    ("MediaPlacement", RawVal.obj [("AudioHostUrl", RawVal.str "a"),
      ("ScreenDataUrl", RawVal.str "b"), ("ScreenSharingUrl", RawVal.str "c"),
      ("ScreenViewingUrl", RawVal.str "d"), ("SignalingUrl", RawVal.str "e"),
      ("TurnControlUrl", RawVal.str "f")])])]

/-- A meeting response that is present (and truthy) but has no
`mediaplacement` substructure. -/
def meetingNoPlacement : RawVal := RawVal.obj [("MeetingId", RawVal.str "m1")]

/-- A meeting response whose `mediaplacement` carries only one of the six URL
fields. -/
def meetingOneUrl : RawVal :=
  RawVal.obj [("MediaPlacement", RawVal.obj [("AudioHostUrl", RawVal.str "a")])]

/-- Two top-level keys whose lower-casings collide, in one insertion order
(together with a `mediaplacement` so that construction completes). -/
def collidingMeetingA : RawVal :=
  RawVal.obj [("MEETINGID", RawVal.str "x"), ("meetingid", RawVal.str "y"),
    ("mediaplacement", RawVal.obj [])]

/-- The same entries as `collidingMeetingA` with the two colliding keys in the
opposite insertion order. -/
def collidingMeetingB : RawVal :=
  RawVal.obj [("meetingid", RawVal.str "y"), ("MEETINGID", RawVal.str "x"),
    ("mediaplacement", RawVal.obj [])]

/-- Two entries whose lower-cased keys are distinct, in one insertion order. -/
def permE1 : List (String × RawVal) :=
  [("MeetingId", RawVal.str "m1"), ("MediaPlacement", RawVal.obj [])]

/-- The same two entries in the opposite insertion order. -/
def permE2 : List (String × RawVal) :=
  [("MediaPlacement", RawVal.obj []), ("MeetingId", RawVal.str "m1")]

/-- The Scenario 1 meeting fields without the `Meeting` wrapper. -/
def flatMeetingFields : List (String × RawVal) :=
  [("MeetingId", RawVal.str "m1"),
    ("MediaPlacement", RawVal.obj [("AudioHostUrl", RawVal.str "a"),
      ("ScreenDataUrl", RawVal.str "b"), ("ScreenSharingUrl", RawVal.str "c"),
      ("ScreenViewingUrl", RawVal.str "d"), ("SignalingUrl", RawVal.str "e"),
      ("TurnControlUrl", RawVal.str "f")])]

/-- The Scenario 3 attendee fields without the `Attendee` wrapper. -/
def flatAttendeeFields : List (String × RawVal) :=
  [("AttendeeId", RawVal.str "att1"), ("ExternalUserId", RawVal.str "ext1"),
    ("JoinToken", RawVal.str "tok1")]

/-- Witness configurations used by concrete instantiations below: the result
of building with `meetingOneUrl` and no attendee response. -/
def oneUrlConfig : MeetingSessionConfiguration :=
  { urls := some { audioHostURL := some (NormVal.str "a") }
    videoDownlinkBandwidthPolicy := some { selfAttendeeId := none }
    videoUplinkBandwidthPolicy := some { selfAttendeeId := none } }

/-- The result of building with both responses absent (probe false). -/
def emptyConfig : MeetingSessionConfiguration :=
  { videoDownlinkBandwidthPolicy := some { selfAttendeeId := none }
    videoUplinkBandwidthPolicy := some { selfAttendeeId := none } }

/-- A wrapped attendee response with all three credential fields. -/
def attendeeX : RawVal :=
  RawVal.obj [("Attendee", RawVal.obj [("AttendeeId", RawVal.str "att1"),
    ("ExternalUserId", RawVal.str "ext1"), ("JoinToken", RawVal.str "tok1")])]

/-- The result of building with `attendeeX` and no meeting response. -/
def attendeeXConfig : MeetingSessionConfiguration :=
  { credentials := some
      { attendeeId := some (NormVal.str "att1")
        externalUserId := some (NormVal.str "ext1")
        joinToken := some (NormVal.str "tok1") }
    videoDownlinkBandwidthPolicy := some { selfAttendeeId := some (NormVal.str "att1") }
    videoUplinkBandwidthPolicy := some { selfAttendeeId := some (NormVal.str "att1") } }

theorem getProp_mapSet (m : NormObj) (k : String) (v : NormVal) (k2 : String) :
    getProp (mapSet m k v) k2 = if k = k2 then some v else getProp m k2 := by
  induction m with
  | nil => simp [mapSet, getProp]
  | cons p rest ih =>
    obtain ⟨k1, v1⟩ := p
    simp only [mapSet]
    by_cases h1 : k1 = k
    · subst h1
      simp only [if_pos rfl, getProp]
      by_cases h2 : k1 = k2 <;> simp [h2]
    · simp only [if_neg h1, getProp, ih]
      by_cases h2 : k1 = k2
      · subst h2
        have hk : ¬(k = k1) := fun h => h1 h.symm
        simp [hk]
      · simp [h2]

theorem mem_mapSet (m : NormObj) (k : String) (v : NormVal) (p : String × NormVal)
    (h : p ∈ mapSet m k v) : p ∈ m ∨ p = (k, v) := by
  induction m with
  | nil => simpa [mapSet] using h
  | cons q rest ih =>
    obtain ⟨k1, v1⟩ := q
    by_cases h1 : k1 = k
    · simp only [mapSet, if_pos h1, List.mem_cons] at h
      rcases h with h | h
      · exact Or.inr h
      · exact Or.inl (List.mem_cons_of_mem _ h)
    · simp only [mapSet, if_neg h1, List.mem_cons] at h
      rcases h with h | h
      · exact Or.inl (by simp [h])
      · rcases ih h with h2 | h2
        · exact Or.inl (List.mem_cons_of_mem _ h2)
        · exact Or.inr h2

theorem getProp_lowerEntries (e : List (String × RawVal)) (acc : NormObj) (k : String) :
    getProp (lowerEntries acc e) k =
      match lastKept e k with
      | some nv => some nv
      | none => getProp acc k := by
  induction e generalizing acc with
  | nil => simp [lowerEntries, lastKept]
  | cons p rest ih =>
    obtain ⟨key, v⟩ := p
    simp only [lowerEntries, lastKept]
    cases hv : keptNorm v with
    | some nv =>
      simp only [hv, ih]
      cases lastKept rest k with
      | some nv2 => simp
      | none =>
        simp only [getProp_mapSet]
        by_cases hk : strToLower key = k <;> simp [hk]
    | none =>
      simp only [hv, ih]
      cases lastKept rest k <;> simp

theorem getProp_toLower (es : List (String × RawVal)) (k : String) :
    getProp (toLowerCasePropertyNames (RawVal.obj es)) k = lastKept es k := by
  rw [show toLowerCasePropertyNames (RawVal.obj es) = lowerEntries [] es from rfl,
    getProp_lowerEntries]
  cases lastKept es k <;> simp [getProp]

theorem extractMeeting_eq_none (n : NormObj) :
    extractMeeting n = none ↔ getPropV (unwrapRoot n "meeting") "mediaplacement" = none := by
  unfold extractMeeting
  cases h : getPropV (unwrapRoot n "meeting") "mediaplacement" <;> simp

theorem buildConfig_meeting_absent (m a : Option RawVal) (kf : Bool)
    (hm : normalizeArg m = none) :
    buildConfig m a kf
      = some (assemble none none ((normalizeArg a).map extractCredentials) kf) := by
  simp only [buildConfig, hm]

theorem buildConfig_meeting_fault (m a : Option RawVal) (kf : Bool) (n : NormObj)
    (hm : normalizeArg m = some n) (he : extractMeeting n = none) :
    buildConfig m a kf = none := by
  simp only [buildConfig, hm, he]

theorem buildConfig_meeting_ok (m a : Option RawVal) (kf : Bool) (n : NormObj)
    (mid : Option NormVal) (u : MeetingSessionURLs)
    (hm : normalizeArg m = some n) (he : extractMeeting n = some (mid, u)) :
    buildConfig m a kf
      = some (assemble mid (some u) ((normalizeArg a).map extractCredentials) kf) := by
  simp only [buildConfig, hm, he]

theorem buildConfig_some_eq (m a : Option RawVal) (kf : Bool)
    (c : MeetingSessionConfiguration) (h : buildConfig m a kf = some c) :
    c.credentials = (normalizeArg a).map extractCredentials ∧
    c.videoDownlinkBandwidthPolicy = some { selfAttendeeId := resolvedAid a } ∧
    c.videoUplinkBandwidthPolicy = some { selfAttendeeId := resolvedAid a } ∧
    c.urls.isSome = (normalizeArg m).isSome := by
  cases hm : normalizeArg m with
  | none =>
    rw [buildConfig_meeting_absent m a kf hm] at h
    simp only [Option.some.injEq] at h
    subst h
    simp [assemble, resolvedAid]
  | some n =>
    cases he : extractMeeting n with
    | none =>
      rw [buildConfig_meeting_fault m a kf n hm he] at h
      cases h
    | some p =>
      obtain ⟨mid, u⟩ := p
      rw [buildConfig_meeting_ok m a kf n mid u hm he] at h
      simp only [Option.some.injEq] at h
      subst h
      simp [assemble, resolvedAid]

/-- C1 counterexample: with a meeting response that is present but lacks the
`mediaplacement` substructure, construction does not complete with the URL
fields absent — it faults (`undefined.audiohosturl` raises a `TypeError`),
so the builder does throw on a partially-missing shape. -/
theorem claim_C1_counterexample :
    buildConfig (some meetingNoPlacement) none false = none := by decide

/-- C1 (amended): construction faults exactly when a truthy meeting response,
after normalization and root-key unwrap, lacks a `mediaplacement` property
(the fault is the uncaught `TypeError` of reading `audiohosturl` off
`undefined`, not a documented fault policy); in every other case — including
every attendee response — construction completes, degrading field-by-field. -/
theorem claim_C1_fault_characterization (m a : Option RawVal) (kf : Bool) :
    buildConfig m a kf = none ↔
      ∃ n, normalizeArg m = some n ∧
        getPropV (unwrapRoot n "meeting") "mediaplacement" = none := by
  cases hm : normalizeArg m with
  | none =>
    rw [buildConfig_meeting_absent m a kf hm]
    simp
  | some n =>
    cases he : extractMeeting n with
    | none =>
      rw [buildConfig_meeting_fault m a kf n hm he]
      simp only [true_iff]
      exact ⟨n, rfl, (extractMeeting_eq_none n).mp he⟩
    | some p =>
      obtain ⟨mid, u⟩ := p
      rw [buildConfig_meeting_ok m a kf n mid u hm he]
      constructor
      · intro h
        cases h
      · rintro ⟨n2, hn2, hmp⟩
        have hn : n2 = n := by injection hn2 with h2; exact h2.symm
        subst hn
        rw [(extractMeeting_eq_none n2).mpr hmp] at he
        cases he

/-- C4: building with both arguments absent yields a configuration with
meeting id, credentials and URLs absent and all documented defaults:
connectionTimeoutMs 15000, screenSharingTimeoutMs 5000,
screenViewingTimeoutMs 5000, attendeePresenceTimeoutMs 0,
enableWebAudio false, enableUnifiedPlanForChromiumBasedBrowsers true,
enableSimulcastForUnifiedPlanChromiumBasedBrowsers false. -/
theorem claim_C4_defaults (kf : Bool) :
    ∃ c, buildConfig none none kf = some c ∧ c.meetingId = none ∧
      c.credentials = none ∧ c.urls = none ∧ c.connectionTimeoutMs = 15000 ∧
      c.screenSharingTimeoutMs = 5000 ∧ c.screenViewingTimeoutMs = 5000 ∧
      c.attendeePresenceTimeoutMs = 0 ∧ c.enableWebAudio = false ∧
      c.enableUnifiedPlanForChromiumBasedBrowsers = true ∧
      c.enableSimulcastForUnifiedPlanChromiumBasedBrowsers = false :=
  ⟨assemble none none none kf, rfl, rfl, rfl, rfl, rfl, rfl, rfl, rfl, rfl, rfl, rfl⟩

/-- C7: Scenario 1 — the wrapped input with meeting id `m1` and URLs `a`..`f`,
no attendee response, yields meeting id `m1`, the six URLs in their named
slots, and absent credentials. -/
theorem claim_C7_scenario1 (kf : Bool) :
    ∃ c, buildConfig (some scenario1) none kf = some c ∧
      c.meetingId = some (NormVal.str "m1") ∧
      c.urls = some
        { audioHostURL := some (NormVal.str "a")
          screenDataURL := some (NormVal.str "b")
          screenSharingURL := some (NormVal.str "c")
          screenViewingURL := some (NormVal.str "d")
          signalingURL := some (NormVal.str "e")
          turnControlURL := some (NormVal.str "f") } ∧
      c.credentials = none :=
  ⟨_, rfl, rfl, rfl, rfl⟩

/-- C8 counterexample: a meeting response whose `mediaplacement` holds only
`audiohosturl` completes construction with a urls record that is present but
only partially populated (`audioHostURL` set, the five other slots absent),
refuting "either fully absent or fully populated". -/
theorem claim_C8_counterexample :
    (buildConfig (some meetingOneUrl) none false).bind MeetingSessionConfiguration.urls
      = some { audioHostURL := some (NormVal.str "a") } := by decide

/-- C8 (amended): in every construction that completes, the urls record is
present iff a (truthy) meeting response was supplied and the credentials
record is present iff a (truthy) attendee response was supplied; each record
may however be partially populated when URL or credential fields are missing
from the input. -/
theorem claim_C8_presence (m a : Option RawVal) (kf : Bool)
    (c : MeetingSessionConfiguration) (h : buildConfig m a kf = some c) :
    c.urls.isSome = (normalizeArg m).isSome ∧
    c.credentials.isSome = (normalizeArg a).isSome := by
  obtain ⟨hc, _, _, hu⟩ := buildConfig_some_eq m a kf c h
  refine ⟨hu, ?_⟩
  rw [hc]
  cases normalizeArg a <;> simp

/-- C8 witness: the amended presence property instantiated at the
one-URL meeting input with no attendee response. -/
theorem claim_C8_presence_witness :
    buildConfig (some meetingOneUrl) none false = some oneUrlConfig ∧
    (oneUrlConfig.urls.isSome = (normalizeArg (some meetingOneUrl)).isSome ∧
     oneUrlConfig.credentials.isSome = (normalizeArg (none : Option RawVal)).isSome) :=
  ⟨by decide, claim_C8_presence (some meetingOneUrl) none false oneUrlConfig (by decide)⟩

/-- C9: attendee-side processing is total — adding any attendee key-value
structure never changes whether construction completes, and building from an
attendee structure alone creates the credentials record with each of the
three fields bound to the corresponding resolved property (absent when the
property is missing). -/
theorem claim_C9_attendee_total (es : List (String × RawVal)) (kf : Bool) :
    (∀ m, (buildConfig m (some (RawVal.obj es)) kf).isSome
        = (buildConfig m none kf).isSome) ∧
    (∃ c, buildConfig none (some (RawVal.obj es)) kf = some c ∧
      c.credentials = some
        { attendeeId :=
            getPropV (unwrapRoot (toLowerCasePropertyNames (RawVal.obj es)) "attendee")
              "attendeeid"
          externalUserId :=
            getPropV (unwrapRoot (toLowerCasePropertyNames (RawVal.obj es)) "attendee")
              "externaluserid"
          joinToken :=
            getPropV (unwrapRoot (toLowerCasePropertyNames (RawVal.obj es)) "attendee")
              "jointoken" }) := by
  constructor
  · intro m
    cases hm : normalizeArg m with
    | none =>
      rw [buildConfig_meeting_absent m (some (RawVal.obj es)) kf hm,
        buildConfig_meeting_absent m none kf hm]
      rfl
    | some n =>
      cases he : extractMeeting n with
      | none =>
        rw [buildConfig_meeting_fault m (some (RawVal.obj es)) kf n hm he,
          buildConfig_meeting_fault m none kf n hm he]
      | some p =>
        obtain ⟨mid, u⟩ := p
        rw [buildConfig_meeting_ok m (some (RawVal.obj es)) kf n mid u hm he,
          buildConfig_meeting_ok m none kf n mid u hm he]
        rfl
  · exact ⟨_, rfl, rfl⟩

/-- C10: every construction that completes carries freshly constructed
downlink and uplink bandwidth policies — both fields are non-absent even
though their declarations default them to absent. -/
theorem claim_C10_policies_present (m a : Option RawVal) (kf : Bool)
    (c : MeetingSessionConfiguration) (h : buildConfig m a kf = some c) :
    c.videoDownlinkBandwidthPolicy.isSome = true ∧
    c.videoUplinkBandwidthPolicy.isSome = true := by
  obtain ⟨_, h1, h2, _⟩ := buildConfig_some_eq m a kf c h
  rw [h1, h2]
  exact ⟨rfl, rfl⟩

/-- C10 witness: the policies-present property instantiated at the build with
both responses absent. -/
theorem claim_C10_policies_present_witness :
    buildConfig none none false = some emptyConfig ∧
    (emptyConfig.videoDownlinkBandwidthPolicy.isSome = true ∧
     emptyConfig.videoUplinkBandwidthPolicy.isSome = true) :=
  ⟨by decide, claim_C10_policies_present none none false emptyConfig (by decide)⟩

/-- C5: when the resolved attendee id is the string `x`, both default
bandwidth policies are constructed with identifier `x`; when the attendee
response is absent, both are constructed with an absent identifier. -/
theorem claim_C5_attendee_id (m : Option RawVal) (a : RawVal) (kf : Bool) :
    (∀ (x : String) (c : MeetingSessionConfiguration),
        resolvedAid (some a) = some (NormVal.str x) →
        buildConfig m (some a) kf = some c →
        c.videoDownlinkBandwidthPolicy
            = some { selfAttendeeId := some (NormVal.str x) } ∧
        c.videoUplinkBandwidthPolicy
            = some { selfAttendeeId := some (NormVal.str x) }) ∧
    (∀ c : MeetingSessionConfiguration,
        buildConfig m none kf = some c →
        c.videoDownlinkBandwidthPolicy = some { selfAttendeeId := none } ∧
        c.videoUplinkBandwidthPolicy = some { selfAttendeeId := none }) := by
  constructor
  · intro x c hx hc
    obtain ⟨_, h1, h2, _⟩ := buildConfig_some_eq m (some a) kf c hc
    rw [h1, h2, hx]
    exact ⟨rfl, rfl⟩
  · intro c hc
    obtain ⟨_, h1, h2, _⟩ := buildConfig_some_eq m none kf c hc
    rw [h1, h2]
    exact ⟨rfl, rfl⟩

/-- C5 witness: the id-propagation property instantiated at a wrapped
attendee response with attendee id `att1` (and, for the absent case, at the
build with no attendee response). -/
theorem claim_C5_attendee_id_witness :
    (resolvedAid (some attendeeX) = some (NormVal.str "att1") ∧
     buildConfig none (some attendeeX) false = some attendeeXConfig ∧
     (attendeeXConfig.videoDownlinkBandwidthPolicy
          = some { selfAttendeeId := some (NormVal.str "att1") } ∧
      attendeeXConfig.videoUplinkBandwidthPolicy
          = some { selfAttendeeId := some (NormVal.str "att1") })) ∧
    (emptyConfig.videoDownlinkBandwidthPolicy = some { selfAttendeeId := none } ∧
     emptyConfig.videoUplinkBandwidthPolicy = some { selfAttendeeId := none }) :=
  ⟨⟨by decide, by decide,
      (claim_C5_attendee_id none attendeeX false).1 "att1" attendeeXConfig
        (by decide) (by decide)⟩,
    (claim_C5_attendee_id none attendeeX false).2 emptyConfig (by decide)⟩

theorem mem_lowerEntries (e : List (String × RawVal)) (acc : NormObj)
    (p : String × NormVal) (h : p ∈ lowerEntries acc e) :
    p ∈ acc ∨ ∃ key v, (key, v) ∈ e ∧ p.1 = strToLower key ∧ keptNorm v = some p.2 := by
  induction e generalizing acc with
  | nil => exact Or.inl (by simpa [lowerEntries] using h)
  | cons q rest ih =>
    obtain ⟨key, v⟩ := q
    cases hv : keptNorm v with
    | some nv =>
      have h2 : p ∈ lowerEntries (mapSet acc (strToLower key) nv) rest := by
        simpa [lowerEntries, hv] using h
      rcases ih _ h2 with hacc | ⟨key2, v2, hmem, hk, hkept⟩
      · rcases mem_mapSet _ _ _ _ hacc with hacc2 | heq
        · exact Or.inl hacc2
        · exact Or.inr ⟨key, v, List.mem_cons_self _ _, by simp [heq], by simp [heq, hv]⟩
      · exact Or.inr ⟨key2, v2, List.mem_cons_of_mem _ hmem, hk, hkept⟩
    | none =>
      have h2 : p ∈ lowerEntries acc rest := by simpa [lowerEntries, hv] using h
      rcases ih _ h2 with hacc | ⟨key2, v2, hmem, hk, hkept⟩
      · exact Or.inl hacc
      · exact Or.inr ⟨key2, v2, List.mem_cons_of_mem _ hmem, hk, hkept⟩

/-- C6: normalization characterized — looking up any key `k` in the
normalization of a key-value structure yields exactly the last entry whose
lower-cased key is `k` and whose value survives the type dispatch (strings
kept as-is, nested structures kept recursively normalized, numbers, booleans,
arrays and `null` dropped); and every entry of the output arises from some
input entry this way, so dropped values contribute nothing at any depth. -/
theorem claim_C6_normalization (es : List (String × RawVal)) :
    (∀ k, getProp (toLowerCasePropertyNames (RawVal.obj es)) k = lastKept es k) ∧
    (∀ (k : String) (nv : NormVal), (k, nv) ∈ toLowerCasePropertyNames (RawVal.obj es) →
      ∃ key v, (key, v) ∈ es ∧ k = strToLower key ∧ keptNorm v = some nv) := by
  constructor
  · exact getProp_toLower es
  · intro k nv hp
    rcases mem_lowerEntries es [] (k, nv) hp with hacc | hsrc
    · cases hacc
    · exact hsrc

/-- C6 witness: the characterization instantiated at a one-entry structure
with an upper-cased key and at its output entry. -/
theorem claim_C6_normalization_witness :
    getProp (toLowerCasePropertyNames (RawVal.obj [("A", RawVal.str "x")])) "a"
        = lastKept [("A", RawVal.str "x")] "a" ∧
    (("a", NormVal.str "x") ∈ toLowerCasePropertyNames (RawVal.obj [("A", RawVal.str "x")]) ∧
     ∃ key v, (key, v) ∈ [("A", RawVal.str "x")] ∧ "a" = strToLower key ∧
       keptNorm v = some (NormVal.str "x")) :=
  ⟨(claim_C6_normalization [("A", RawVal.str "x")]).1 "a",
    by decide,
    (claim_C6_normalization [("A", RawVal.str "x")]).2 "a" (NormVal.str "x") (by decide)⟩

theorem lastKept_eq_none (e : List (String × RawVal)) (k : String)
    (h : ∀ q ∈ e, strToLower q.1 ≠ k) : lastKept e k = none := by
  induction e with
  | nil => rfl
  | cons q rest ih =>
    obtain ⟨key, v⟩ := q
    simp only [lastKept]
    rw [ih fun q hq => h q (List.mem_cons_of_mem _ hq)]
    have hk : strToLower key ≠ k := h (key, v) (List.mem_cons_self _ _)
    cases keptNorm v <;> simp [hk]

theorem lastKept_some_mem (e : List (String × RawVal)) (k : String) (nv : NormVal)
    (h : lastKept e k = some nv) :
    ∃ key v, (key, v) ∈ e ∧ strToLower key = k ∧ keptNorm v = some nv := by
  induction e with
  | nil => cases h
  | cons q rest ih =>
    obtain ⟨key, v⟩ := q
    simp only [lastKept] at h
    cases hr : lastKept rest k with
    | some nv2 =>
      simp only [hr, Option.some.injEq] at h
      subst h
      obtain ⟨key2, v2, hm, hk, hkept⟩ := ih hr
      exact ⟨key2, v2, List.mem_cons_of_mem _ hm, hk, hkept⟩
    | none =>
      simp only [hr] at h
      cases hv : keptNorm v with
      | none =>
        simp only [hv] at h
        cases h
      | some nv2 =>
        simp only [hv] at h
        by_cases hk : strToLower key = k
        · rw [if_pos hk] at h
          injection h with h2
          subst h2
          exact ⟨key, v, List.mem_cons_self _ _, hk, hv⟩
        · rw [if_neg hk] at h
          cases h

theorem mem_lastKept (e : List (String × RawVal)) (key : String) (v : RawVal)
    (nv : NormVal)
    (hdis : e.Pairwise fun p q => strToLower p.1 ≠ strToLower q.1)
    (hm : (key, v) ∈ e) (hkept : keptNorm v = some nv) :
    lastKept e (strToLower key) = some nv := by
  induction e with
  | nil => cases hm
  | cons q rest ih =>
    obtain ⟨key1, v1⟩ := q
    rw [List.pairwise_cons] at hdis
    obtain ⟨hhead, htail⟩ := hdis
    rcases List.mem_cons.mp hm with heq | hmem
    · injection heq with h1 h2
      subst h1
      subst h2
      have hnone : lastKept rest (strToLower key) = none :=
        lastKept_eq_none rest _ fun q hq => Ne.symm (hhead q hq)
      simp [lastKept, hnone, hkept]
    · have hrest := ih htail hmem
      simp only [lastKept, hrest]

theorem lastKept_perm (e1 e2 : List (String × RawVal)) (k : String)
    (hperm : e1.Perm e2)
    (hdis : e1.Pairwise fun p q => strToLower p.1 ≠ strToLower q.1) :
    lastKept e1 k = lastKept e2 k := by
  have hdis2 : e2.Pairwise fun p q => strToLower p.1 ≠ strToLower q.1 :=
    (hperm.pairwise_iff fun h => Ne.symm h).mp hdis
  cases h1 : lastKept e1 k with
  | some nv =>
    obtain ⟨key, v, hm, hk, hkept⟩ := lastKept_some_mem e1 k nv h1
    subst hk
    exact (mem_lastKept e2 key v nv hdis2 (hperm.mem_iff.mp hm) hkept).symm
  | none =>
    cases h2 : lastKept e2 k with
    | none => rfl
    | some nv =>
      obtain ⟨key, v, hm, hk, hkept⟩ := lastKept_some_mem e2 k nv h2
      subst hk
      have hx := mem_lastKept e1 key v nv hdis (hperm.mem_iff.mpr hm) hkept
      rw [hx] at h1
      cases h1

theorem getPropV_unwrapRoot_ext (n1 n2 : NormObj) (r k : String)
    (h : ∀ k2, getProp n1 k2 = getProp n2 k2) :
    getPropV (unwrapRoot n1 r) k = getPropV (unwrapRoot n2 r) k := by
  unfold unwrapRoot
  rw [h r]
  cases getProp n2 r with
  | none => simpa [getPropV] using h k
  | some v =>
    by_cases ht : truthyNormV v
    · simp [ht]
    · simpa [ht, getPropV] using h k

theorem extractMeeting_ext (n1 n2 : NormObj)
    (h : ∀ k, getProp n1 k = getProp n2 k) :
    extractMeeting n1 = extractMeeting n2 := by
  unfold extractMeeting
  rw [getPropV_unwrapRoot_ext n1 n2 "meeting" "mediaplacement" h]
  cases getPropV (unwrapRoot n2 "meeting") "mediaplacement" with
  | none => rfl
  | some mp =>
    rw [getPropV_unwrapRoot_ext n1 n2 "meeting" "meetingid" h]

/-- C3 counterexample: two insertion orders of the same entries (a transposition
of the keys `MEETINGID` and `meetingid`, whose lower-casings collide) normalize
to different maps — `Map.set` makes the later entry win — and construct
configurations with different meeting ids, refuting order-independence for
colliding keys. -/
theorem claim_C3_counterexample :
    (jsEnumEntries collidingMeetingB).Perm (jsEnumEntries collidingMeetingA) ∧
    toLowerCasePropertyNames collidingMeetingA ≠ toLowerCasePropertyNames collidingMeetingB ∧
    (buildConfig (some collidingMeetingA) none false).map
        MeetingSessionConfiguration.meetingId = some (some (NormVal.str "y")) ∧
    (buildConfig (some collidingMeetingB) none false).map
        MeetingSessionConfiguration.meetingId = some (some (NormVal.str "x")) ∧
    buildConfig (some collidingMeetingA) none false
      ≠ buildConfig (some collidingMeetingB) none false :=
  ⟨List.Perm.swap ("MEETINGID", RawVal.str "x") ("meetingid", RawVal.str "y") _,
    by decide, by decide, by decide, by decide⟩

/-- C3 (amended): normalization is order-independent provided no two distinct
keys at the same level share a lower-casing — formalized for permutations of
the top-level insertion order with deeper content fixed: the normalized maps
agree on every lookup and construction yields identical configurations. When
lower-casings collide, the last-inserted colliding entry wins, so the result
is order-dependent (see the counterexample). -/
theorem claim_C3_order_independence (e1 e2 : List (String × RawVal))
    (a : Option RawVal) (kf : Bool)
    (hperm : e1.Perm e2)
    (hdis : e1.Pairwise fun p q => strToLower p.1 ≠ strToLower q.1) :
    (∀ k, getProp (toLowerCasePropertyNames (RawVal.obj e1)) k
        = getProp (toLowerCasePropertyNames (RawVal.obj e2)) k) ∧
    buildConfig (some (RawVal.obj e1)) a kf = buildConfig (some (RawVal.obj e2)) a kf := by
  have hext : ∀ k, getProp (toLowerCasePropertyNames (RawVal.obj e1)) k
      = getProp (toLowerCasePropertyNames (RawVal.obj e2)) k := by
    intro k
    rw [getProp_toLower, getProp_toLower]
    exact lastKept_perm e1 e2 k hperm hdis
  refine ⟨hext, ?_⟩
  have hn1 : normalizeArg (some (RawVal.obj e1))
      = some (toLowerCasePropertyNames (RawVal.obj e1)) := rfl
  have hn2 : normalizeArg (some (RawVal.obj e2))
      = some (toLowerCasePropertyNames (RawVal.obj e2)) := rfl
  have hem : extractMeeting (toLowerCasePropertyNames (RawVal.obj e1))
      = extractMeeting (toLowerCasePropertyNames (RawVal.obj e2)) :=
    extractMeeting_ext _ _ hext
  cases he : extractMeeting (toLowerCasePropertyNames (RawVal.obj e2)) with
  | none =>
    rw [buildConfig_meeting_fault _ a kf _ hn1 (hem.trans he),
      buildConfig_meeting_fault _ a kf _ hn2 he]
  | some p =>
    obtain ⟨mid, u⟩ := p
    rw [buildConfig_meeting_ok _ a kf _ mid u hn1 (hem.trans he),
      buildConfig_meeting_ok _ a kf _ mid u hn2 he]

/-- C3 witness: order-independence instantiated at a transposition of two
entries with distinct lower-casings. -/
theorem claim_C3_order_independence_witness :
    (permE1.Perm permE2 ∧
     permE1.Pairwise fun p q => strToLower p.1 ≠ strToLower q.1) ∧
    getProp (toLowerCasePropertyNames (RawVal.obj permE1)) "meetingid"
      = getProp (toLowerCasePropertyNames (RawVal.obj permE2)) "meetingid" ∧
    buildConfig (some (RawVal.obj permE1)) none false
      = buildConfig (some (RawVal.obj permE2)) none false :=
  have hperm : permE1.Perm permE2 :=
    List.Perm.swap ("MediaPlacement", RawVal.obj []) ("MeetingId", RawVal.str "m1") []
  have hdis : permE1.Pairwise fun p q => strToLower p.1 ≠ strToLower q.1 := by decide
  ⟨⟨hperm, hdis⟩,
    (claim_C3_order_independence permE1 permE2 none false hperm hdis).1 "meetingid",
    (claim_C3_order_independence permE1 permE2 none false hperm hdis).2⟩

theorem extractMeeting_congr (n1 n2 : NormObj)
    (h : unwrapRoot n1 "meeting" = unwrapRoot n2 "meeting") :
    extractMeeting n1 = extractMeeting n2 := by
  unfold extractMeeting
  rw [h]

theorem extractCredentials_congr (n1 n2 : NormObj)
    (h : unwrapRoot n1 "attendee" = unwrapRoot n2 "attendee") :
    extractCredentials n1 = extractCredentials n2 := by
  unfold extractCredentials
  rw [h]

theorem toLower_wrapped (w : String) (es : List (String × RawVal)) (low : String)
    (hw : strToLower w = low) :
    toLowerCasePropertyNames (RawVal.obj [(w, RawVal.obj es)])
      = [(low, NormVal.node (toLowerCasePropertyNames (RawVal.obj es)))] := by
  simp [toLowerCasePropertyNames, jsEnumEntries, lowerEntries, keptNorm, mapSet, hw]

/-- C2: shape equivalence — building from the wrapped shape (meeting fields
nested under a `Meeting`-cased key, attendee fields under an `Attendee`-cased
key, matched case-insensitively) and building from the flat shape carrying the
same fields yields the same configuration, provided the field sets do not
themselves contain a `meeting` / `attendee` key (the fixed field vocabularies
do not). -/
theorem claim_C2_shape_equivalence (esm esa : List (String × RawVal))
    (wm wa : String) (kf : Bool)
    (hwm : strToLower wm = "meeting") (hwa : strToLower wa = "attendee")
    (hm : getProp (toLowerCasePropertyNames (RawVal.obj esm)) "meeting" = none)
    (ha : getProp (toLowerCasePropertyNames (RawVal.obj esa)) "attendee" = none) :
    buildConfig (some (RawVal.obj [(wm, RawVal.obj esm)]))
        (some (RawVal.obj [(wa, RawVal.obj esa)])) kf
      = buildConfig (some (RawVal.obj esm)) (some (RawVal.obj esa)) kf := by
  have hum : unwrapRoot (toLowerCasePropertyNames (RawVal.obj [(wm, RawVal.obj esm)])) "meeting"
      = unwrapRoot (toLowerCasePropertyNames (RawVal.obj esm)) "meeting" := by
    rw [toLower_wrapped wm esm "meeting" hwm]
    simp [unwrapRoot, getProp, truthyNormV, hm]
  have hua : unwrapRoot (toLowerCasePropertyNames (RawVal.obj [(wa, RawVal.obj esa)])) "attendee"
      = unwrapRoot (toLowerCasePropertyNames (RawVal.obj esa)) "attendee" := by
    rw [toLower_wrapped wa esa "attendee" hwa]
    simp [unwrapRoot, getProp, truthyNormV, ha]
  have hem : extractMeeting (toLowerCasePropertyNames (RawVal.obj [(wm, RawVal.obj esm)]))
      = extractMeeting (toLowerCasePropertyNames (RawVal.obj esm)) :=
    extractMeeting_congr _ _ hum
  have hcreds : (normalizeArg (some (RawVal.obj [(wa, RawVal.obj esa)]))).map extractCredentials
      = (normalizeArg (some (RawVal.obj esa))).map extractCredentials := by
    show some (extractCredentials (toLowerCasePropertyNames (RawVal.obj [(wa, RawVal.obj esa)])))
      = some (extractCredentials (toLowerCasePropertyNames (RawVal.obj esa)))
    rw [extractCredentials_congr _ _ hua]
  have hn1 : normalizeArg (some (RawVal.obj [(wm, RawVal.obj esm)]))
      = some (toLowerCasePropertyNames (RawVal.obj [(wm, RawVal.obj esm)])) := rfl
  have hn2 : normalizeArg (some (RawVal.obj esm))
      = some (toLowerCasePropertyNames (RawVal.obj esm)) := rfl
  cases he : extractMeeting (toLowerCasePropertyNames (RawVal.obj esm)) with
  | none =>
    rw [buildConfig_meeting_fault _ _ kf _ hn1 (hem.trans he),
      buildConfig_meeting_fault _ _ kf _ hn2 he]
  | some p =>
    obtain ⟨mid, u⟩ := p
    rw [buildConfig_meeting_ok _ _ kf _ mid u hn1 (hem.trans he),
      buildConfig_meeting_ok _ _ kf _ mid u hn2 he, hcreds]

/-- C2 witness: shape equivalence instantiated at the Scenario 1 meeting
fields and the Scenario 3 attendee fields, wrapped under `Meeting` and
`Attendee`. -/
theorem claim_C2_shape_equivalence_witness :
    (strToLower "Meeting" = "meeting" ∧ strToLower "Attendee" = "attendee" ∧
     getProp (toLowerCasePropertyNames (RawVal.obj flatMeetingFields)) "meeting" = none ∧
     getProp (toLowerCasePropertyNames (RawVal.obj flatAttendeeFields)) "attendee" = none) ∧
    buildConfig (some (RawVal.obj [("Meeting", RawVal.obj flatMeetingFields)]))
        (some (RawVal.obj [("Attendee", RawVal.obj flatAttendeeFields)])) false
      = buildConfig (some (RawVal.obj flatMeetingFields))
          (some (RawVal.obj flatAttendeeFields)) false :=
  ⟨⟨by decide, by decide, by decide, by decide⟩,
    claim_C2_shape_equivalence flatMeetingFields flatAttendeeFields "Meeting" "Attendee" false
      (by decide) (by decide) (by decide) (by decide)⟩
